import Mathlib

/-!
Shallow embedding of the pomodoro application state machine from
src/src/App.tsx: the task store (add, update, delete, select, next,
previous), the session clock (start, reset, stop, the one-second tick and
the timer effect that fires the Focus/Break transitions), the derived
progress value, and the JSON persistence layer for tasks, settings and
session data. Machine integers are modelled as Nat or Int (the index
arithmetic in deleteTask follows the JavaScript source, where findIndex
yields -1 on a missing id).
-/

namespace Pomodoro

/-- Priority label of a task, the weightage union type of the source. -/
inductive Weightage where
  | low
  | medium
  | high
  | critical
deriving DecidableEq, Repr

/-- Kind of a break, the breakType union type of the source. -/
inductive BreakType where
  | short
  | long
deriving DecidableEq, Repr

/-- The Task interface of src/src/App.tsx (lines 31-40). -/
structure Task where
  id : String
  title : String
  description : Option String
  duration : Nat
  completed : Bool
  sessions : Nat
  weightage : Weightage
  tags : List String
deriving DecidableEq, Repr

/-- The React state of the App component that the core logic reads and
writes: tasks, currentTaskIndex, timeLeft, isActive, isBreak, breakType,
completedSessions and the three settings. currentTaskIndex is an Int
because the source stores a JavaScript number that deleteTask can drive
below zero. -/
structure AppState where
  tasks : List Task
  currentTaskIndex : Int
  timeLeft : Nat
  isActive : Bool
  isBreak : Bool
  breakType : BreakType
  completedSessions : Nat
  shortBreakTime : Nat
  longBreakTime : Nat
  sessionsUntilLongBreak : Nat
deriving DecidableEq, Repr

/-- Line 85: tasks[currentTaskIndex] or null. A negative or too large
index yields none. -/
def currentTask (s : AppState) : Option Task :=
  if 0 ≤ s.currentTaskIndex then s.tasks[s.currentTaskIndex.toNat]? else none

/-- The JavaScript String.prototype.trim, modelled structurally on the
character list: leading and trailing whitespace removed. -/
def jsTrim (s : String) : String :=
  String.mk
    (((s.data.dropWhile Char.isWhitespace).reverse.dropWhile
      Char.isWhitespace).reverse)

/-- The JavaScript String.prototype.split with separator ",", modelled
structurally: the pieces between commas, in order; no comma yields the
one-element list holding the whole string. -/
def splitCommaAux : List Char → List Char → List String
  | [], acc => [String.mk acc.reverse]
  | c :: rest, acc =>
      if c = ',' then String.mk acc.reverse :: splitCommaAux rest []
      else splitCommaAux rest (c :: acc)

/-- Split a string at every comma. -/
def splitComma (s : String) : List String :=
  splitCommaAux s.data []

/-- Line 296 and 322: the comma separated tags field is split, each piece
trimmed, and empty pieces dropped. -/
def splitTags (raw : String) : List String :=
  ((splitComma raw).map jsTrim).filter (fun t => t.length != 0)

/-- Lines 293-317, addTask: a no-op when the title trims to nothing;
otherwise the new task (fresh id, sessions 0, completed false, the
description dropped when it trims to nothing) is appended, and when the
collection was empty before the call the cursor is set to 0. The fresh id
Date.now().toString() is passed in as newId. -/
def addTask (s : AppState) (newId title desc : String) (dur : Nat)
    (w : Weightage) (tagsRaw : String) : AppState :=
  if jsTrim title = "" then s
  else
    { s with
      tasks := s.tasks ++ [{
        id := newId
        title := jsTrim title
        description := if jsTrim desc = "" then none else some (jsTrim desc)
        duration := dur
        completed := false
        sessions := 0
        weightage := w
        tags := splitTags tagsRaw }]
      currentTaskIndex :=
        if s.tasks.length = 0 then 0 else s.currentTaskIndex }

/-- Lines 319-338, updateTask: a no-op when the title trims to nothing;
otherwise every task whose id equals the edited id gets the form's title,
description, duration, weightage and tags, the remaining fields kept. -/
def updateTask (s : AppState) (editId title desc : String) (dur : Nat)
    (w : Weightage) (tagsRaw : String) : AppState :=
  if jsTrim title = "" then s
  else
    { s with
      tasks := s.tasks.map (fun task =>
        if task.id = editId then
          { task with
            title := jsTrim title
            description := if jsTrim desc = "" then none else some (jsTrim desc)
            duration := dur
            weightage := w
            tags := splitTags tagsRaw }
        else task) }

/-- JavaScript Array.prototype.findIndex on the id field: the first
matching index, or -1 when no task matches. -/
def findIndexAux : List Task → String → Nat → Int
  | [], _, _ => -1
  | t :: rest, taskId, i =>
      if t.id = taskId then (i : Int) else findIndexAux rest taskId (i + 1)

/-- First index of the task with the given id, -1 when absent
(line 341). -/
def findIndex (ts : List Task) (taskId : String) : Int :=
  findIndexAux ts taskId 0

/-- Lines 340-352, deleteTask: every task with the id is filtered out;
the cursor is then adjusted against the pre-delete list: when the found
index equals the cursor and the cursor is at or past length - 1 the
cursor becomes max 0 (length - 2), else when the found index is below the
cursor the cursor is decremented. The countdown is stopped and the break
phase left unconditionally. -/
def deleteTask (s : AppState) (taskId : String) : AppState :=
  { s with
    tasks := s.tasks.filter (fun t => t.id != taskId)
    currentTaskIndex :=
      if findIndex s.tasks taskId = s.currentTaskIndex ∧
          (s.tasks.length : Int) - 1 ≤ s.currentTaskIndex then
        max 0 ((s.tasks.length : Int) - 2)
      else if findIndex s.tasks taskId < s.currentTaskIndex then
        s.currentTaskIndex - 1
      else s.currentTaskIndex
    isActive := false
    isBreak := false }

/-- Lines 270-275, selectTask: the cursor is set to the given index with
no range check, the countdown stopped, the break phase left. -/
def selectTask (s : AppState) (taskIndex : Int) : AppState :=
  { s with currentTaskIndex := taskIndex, isActive := false, isBreak := false }

/-- Lines 277-283, nextTaskHandler: within bounds the cursor moves one
right, the countdown stops and the break phase is left. -/
def nextTaskHandler (s : AppState) : AppState :=
  if s.currentTaskIndex < (s.tasks.length : Int) - 1 then
    { s with
      currentTaskIndex := s.currentTaskIndex + 1
      isActive := false
      isBreak := false }
  else s

/-- Lines 285-291, previousTaskHandler: within bounds the cursor moves
one left, the countdown stops and the break phase is left. -/
def previousTaskHandler (s : AppState) : AppState :=
  if 0 < s.currentTaskIndex then
    { s with
      currentTaskIndex := s.currentTaskIndex - 1
      isActive := false
      isBreak := false }
  else s

/-- Lines 182-207, the focus-complete branch of the timer effect:
completedSessions is incremented, the current task's sessions counter is
incremented (by id), the break kind is long exactly when the new
completedSessions count is divisible by sessionsUntilLongBreak, the break
starts and timeLeft becomes the matching break length in seconds. -/
def focusComplete (s : AppState) : AppState :=
  match currentTask s with
  | some t =>
      { s with
        completedSessions := s.completedSessions + 1
        tasks := s.tasks.map (fun task =>
          if task.id = t.id then { task with sessions := task.sessions + 1 }
          else task)
        breakType :=
          if (s.completedSessions + 1) % s.sessionsUntilLongBreak = 0 then
            BreakType.long
          else BreakType.short
        isBreak := true
        timeLeft :=
          (if (s.completedSessions + 1) % s.sessionsUntilLongBreak = 0 then
            s.longBreakTime
          else s.shortBreakTime) * 60 }
  | none => s

/-- Lines 208-224, the break-complete branch of the timer effect: the
break phase is left, the countdown stops, and when a current task exists
timeLeft is re-armed to its duration in seconds. -/
def breakComplete (s : AppState) : AppState :=
  { s with
    isBreak := false
    isActive := false
    timeLeft :=
      match currentTask s with
      | some t => t.duration * 60
      | none => s.timeLeft }

/-- Lines 174-230, one run of the timer useEffect body: while active with
time on the clock it only schedules the interval (no state change); at an
observed zero while active it fires the focus-complete branch when not on
a break and a current task exists, else the break-complete branch. -/
def timerEffect (s : AppState) : AppState :=
  if s.isActive = true ∧ 0 < s.timeLeft then s
  else if s.timeLeft = 0 ∧ s.isActive = true then
    if s.isBreak = false ∧ (currentTask s).isSome then focusComplete s
    else breakComplete s
  else s

/-- One second of wall clock: the interval exists only while active with
time on the clock (line 177); it decrements timeLeft by one (line 179)
and the re-rendered component immediately re-runs the timer effect on the
new state, which fires the zero-crossing transition at most once. -/
def tick (s : AppState) : AppState :=
  if s.isActive = true ∧ 0 < s.timeLeft then
    timerEffect { s with timeLeft := s.timeLeft - 1 }
  else s

/-- Lines 244-247, startTimer: a no-op when there is no current task and
no break is in progress; otherwise the countdown is started. -/
def startTimer (s : AppState) : AppState :=
  if (currentTask s).isNone ∧ s.isBreak = false then s
  else { s with isActive := true }

/-- Lines 249-251, toggleTimer: flips the running flag. -/
def toggleTimer (s : AppState) : AppState :=
  { s with isActive := !s.isActive }

/-- Lines 253-260, resetTimer: stops the countdown and restores timeLeft
to the full length of the current phase; with no current task and no
break it leaves timeLeft alone. -/
def resetTimer (s : AppState) : AppState :=
  if s.isBreak = true then
    { s with
      isActive := false
      timeLeft :=
        (if s.breakType = BreakType.short then s.shortBreakTime
        else s.longBreakTime) * 60 }
  else
    match currentTask s with
    | some t => { s with isActive := false, timeLeft := t.duration * 60 }
    | none => { s with isActive := false }

/-- Lines 262-268, stopSession: stops the countdown, leaves the break
phase, and re-arms timeLeft to the current task's duration when one
exists. -/
def stopSession (s : AppState) : AppState :=
  match currentTask s with
  | some t =>
      { s with isActive := false, isBreak := false, timeLeft := t.duration * 60 }
  | none => { s with isActive := false, isBreak := false }

/-- Lines 239-241, totalTime: the full length in seconds of the current
phase; the JavaScript expression (currentTask?.duration || 25) falls back
to 25 when there is no current task or its duration is zero. -/
def totalTime (s : AppState) : Nat :=
  if s.isBreak = true then
    (if s.breakType = BreakType.short then s.shortBreakTime
    else s.longBreakTime) * 60
  else
    (match currentTask s with
    | some t => if t.duration = 0 then 25 else t.duration
    | none => 25) * 60

/-- Line 242, the derived progress percentage, modelled over the
rationals. -/
def progress (s : AppState) : ℚ :=
  if 0 < s.timeLeft then
    ((totalTime s : ℚ) - (s.timeLeft : ℚ)) / (totalTime s : ℚ) * 100
  else 0

/-- Lines 146-150, the effect that sizes the idle focus clock: with a
current task, outside a break and with the countdown stopped, timeLeft is
set to the current task's duration in seconds. -/
def durationEffect (s : AppState) : AppState :=
  match currentTask s with
  | some t =>
      if s.isBreak = false ∧ s.isActive = false then
        { s with timeLeft := t.duration * 60 }
      else s
  | none => s

/-- A JSON value, the shape JSON.stringify writes and JSON.parse reads
back in saveToStorage and loadFromStorage (lines 13-29). Numbers stored
by the app are integers. -/
inductive Json where
  | null
  | bool (b : Bool)
  | num (n : Int)
  | str (s : String)
  | arr (xs : List Json)
  | obj (fields : List (String × Json))

/-- First value bound to a key in a JSON object field list. -/
def lookupField : List (String × Json) → String → Option Json
  | [], _ => none
  | (k, v) :: rest, key => if k = key then some v else lookupField rest key

/-- Property access on a parsed JSON value. -/
def Json.getField : Json → String → Option Json
  | .obj fields, key => lookupField fields key
  | _, _ => none

/-- Read a JSON string. -/
def Json.asStr : Json → Option String
  | .str s => some s
  | _ => none

/-- Read a JSON integer. -/
def Json.asInt : Json → Option Int
  | .num n => some n
  | _ => none

/-- Read a non-negative JSON integer. -/
def Json.asNat : Json → Option Nat
  | .num n => if 0 ≤ n then some n.toNat else none
  | _ => none

/-- Read a JSON boolean. -/
def Json.asBool : Json → Option Bool
  | .bool b => some b
  | _ => none

/-- The weightage union value as the string JSON.stringify writes. -/
def weightageToStr : Weightage → String
  | .low => "low"
  | .medium => "medium"
  | .high => "high"
  | .critical => "critical"

/-- The weightage union value read back from its string. -/
def strToWeightage (s : String) : Option Weightage :=
  if s = "low" then some Weightage.low
  else if s = "medium" then some Weightage.medium
  else if s = "high" then some Weightage.high
  else if s = "critical" then some Weightage.critical
  else none

/-- JSON.stringify of one Task record: an undefined description is
dropped from the serialized object, every other field is written. -/
def encodeTask (t : Task) : Json :=
  Json.obj
    ([("id", Json.str t.id), ("title", Json.str t.title)]
      ++ (match t.description with
          | some d => [("description", Json.str d)]
          | none => [])
      ++ [("duration", Json.num t.duration),
          ("completed", Json.bool t.completed),
          ("sessions", Json.num t.sessions),
          ("weightage", Json.str (weightageToStr t.weightage)),
          ("tags", Json.arr (t.tags.map Json.str))])

/-- Read back a JSON array of strings. -/
def decodeStrList : List Json → Option (List String)
  | [] => some []
  | j :: rest => do
      let s ← j.asStr
      let ss ← decodeStrList rest
      pure (s :: ss)

/-- JSON.parse of one Task record, reading each field of the Task
interface; a missing description key reads back as none. -/
def decodeTask (j : Json) : Option Task := do
  let tid ← (j.getField "id").bind Json.asStr
  let title ← (j.getField "title").bind Json.asStr
  let dur ← (j.getField "duration").bind Json.asNat
  let comp ← (j.getField "completed").bind Json.asBool
  let sess ← (j.getField "sessions").bind Json.asNat
  let w ← ((j.getField "weightage").bind Json.asStr).bind strToWeightage
  let tagsJson ← j.getField "tags"
  let tags ←
    match tagsJson with
    | Json.arr xs => decodeStrList xs
    | _ => none
  pure
    { id := tid
      title := title
      description := (j.getField "description").bind Json.asStr
      duration := dur
      completed := comp
      sessions := sess
      weightage := w
      tags := tags }

/-- The pomodoro_tasks record (line 154): the task list serialized as a
JSON array. -/
def encodeTaskList (ts : List Task) : Json :=
  Json.arr (ts.map encodeTask)

/-- Read back a JSON array of Task records. -/
def decodeTaskArr : List Json → Option (List Task)
  | [] => some []
  | j :: rest => do
      let t ← decodeTask j
      let ts ← decodeTaskArr rest
      pure (t :: ts)

/-- JSON.parse of the pomodoro_tasks record. -/
def decodeTaskList : Json → Option (List Task)
  | Json.arr js => decodeTaskArr js
  | _ => none

/-- The pomodoro_settings record (lines 166-170). -/
structure Settings where
  shortBreakTime : Nat
  longBreakTime : Nat
  sessionsUntilLongBreak : Nat
deriving DecidableEq, Repr

/-- JSON.stringify of the settings record. -/
def encodeSettings (st : Settings) : Json :=
  Json.obj
    [("shortBreakTime", Json.num st.shortBreakTime),
     ("longBreakTime", Json.num st.longBreakTime),
     ("sessionsUntilLongBreak", Json.num st.sessionsUntilLongBreak)]

/-- JSON.parse of the settings record (lines 66-76 read these keys). -/
def decodeSettings (j : Json) : Option Settings := do
  let sb ← (j.getField "shortBreakTime").bind Json.asNat
  let lb ← (j.getField "longBreakTime").bind Json.asNat
  let su ← (j.getField "sessionsUntilLongBreak").bind Json.asNat
  pure { shortBreakTime := sb, longBreakTime := lb, sessionsUntilLongBreak := su }

/-- The pomodoro_session_data record (line 162). -/
structure SessionData where
  completedSessions : Nat
deriving DecidableEq, Repr

/-- JSON.stringify of the session data record. -/
def encodeSessionData (sd : SessionData) : Json :=
  Json.obj [("completedSessions", Json.num sd.completedSessions)]

/-- JSON.parse of the session data record (line 57 reads this key). -/
def decodeSessionData (j : Json) : Option SessionData := do
  let n ← (j.getField "completedSessions").bind Json.asNat
  pure { completedSessions := n }

/-- The pomodoro_current_task_index record (line 158): a bare integer. -/
def encodeIndex (i : Int) : Json :=
  Json.num i

/-- JSON.parse of the pomodoro_current_task_index record. -/
def decodeIndex (j : Json) : Option Int :=
  j.asInt

/-! ## Concrete states -/

/-- A sample task of duration 5 minutes. -/
def taskA : Task :=
  { id := "a", title := "write", description := none, duration := 5,
    completed := false, sessions := 0, weightage := Weightage.medium,
    tags := [] }

/-- A second sample task with every optional part populated. -/
def taskB : Task :=
  { id := "b", title := "read", description := some "a chapter",
    duration := 30, completed := true, sessions := 2,
    weightage := Weightage.critical, tags := ["deep", "book"] }

/-- A third sample task. -/
def taskC : Task :=
  { id := "c", title := "rest", description := none, duration := 10,
    completed := false, sessions := 1, weightage := Weightage.low,
    tags := [] }

/-- A running focus session on taskA, fresh at five minutes. -/
def stateRun : AppState :=
  { tasks := [taskA], currentTaskIndex := 0, timeLeft := 300,
    isActive := true, isBreak := false, breakType := BreakType.short,
    completedSessions := 0, shortBreakTime := 5, longBreakTime := 15,
    sessionsUntilLongBreak := 4 }

/-- An idle state over three tasks with the cursor on the last. -/
def stateThree : AppState :=
  { tasks := [taskA, taskB, taskC], currentTaskIndex := 2, timeLeft := 600,
    isActive := false, isBreak := false, breakType := BreakType.short,
    completedSessions := 3, shortBreakTime := 5, longBreakTime := 15,
    sessionsUntilLongBreak := 4 }

/-- An idle state with no tasks at all and time still on the clock. -/
def stateEmpty : AppState :=
  { tasks := [], currentTaskIndex := 0, timeLeft := 42, isActive := true,
    isBreak := false, breakType := BreakType.short, completedSessions := 0,
    shortBreakTime := 5, longBreakTime := 15, sessionsUntilLongBreak := 4 }

/-! ## The claims -/

/-- Claim C2: on every Focus to Break transition, after completedSessions
has been incremented to N with sessionsUntilLongBreak = k, the break kind
is long exactly when N mod k = 0, and timeLeft becomes shortBreakTime*60
for a short break and longBreakTime*60 for a long one. -/
theorem c2_break_kind_and_length (s : AppState) (t : Task)
    (hcur : currentTask s = some t) (ha : s.isActive = true)
    (hb : s.isBreak = false) (hz : s.timeLeft = 0) :
    (timerEffect s).completedSessions = s.completedSessions + 1 ∧
    ((timerEffect s).breakType = BreakType.long ↔
      (s.completedSessions + 1) % s.sessionsUntilLongBreak = 0) ∧
    ((timerEffect s).breakType = BreakType.short →
      (timerEffect s).timeLeft = s.shortBreakTime * 60) ∧
    ((timerEffect s).breakType = BreakType.long →
      (timerEffect s).timeLeft = s.longBreakTime * 60) := by
  have he : timerEffect s = focusComplete s := by
    simp [timerEffect, hz, ha, hb, hcur]
  rw [he]
  unfold focusComplete
  rw [hcur]
  by_cases hmod : (s.completedSessions + 1) % s.sessionsUntilLongBreak = 0 <;>
    simp [hmod]

/-- Witness for C2: a focus session on taskA observed at zero, fourth
completion, hence a long break of 15 minutes. -/
theorem c2_break_kind_and_length_witness :
    (timerEffect { stateRun with timeLeft := 0 }).completedSessions =
      { stateRun with timeLeft := 0 }.completedSessions + 1 ∧
    ((timerEffect { stateRun with timeLeft := 0 }).breakType = BreakType.long ↔
      ({ stateRun with timeLeft := 0 }.completedSessions + 1) %
        { stateRun with timeLeft := 0 }.sessionsUntilLongBreak = 0) ∧
    ((timerEffect { stateRun with timeLeft := 0 }).breakType = BreakType.short →
      (timerEffect { stateRun with timeLeft := 0 }).timeLeft =
        { stateRun with timeLeft := 0 }.shortBreakTime * 60) ∧
    ((timerEffect { stateRun with timeLeft := 0 }).breakType = BreakType.long →
      (timerEffect { stateRun with timeLeft := 0 }).timeLeft =
        { stateRun with timeLeft := 0 }.longBreakTime * 60) :=
  c2_break_kind_and_length { stateRun with timeLeft := 0 } taskA rfl rfl rfl rfl

/-- Claim C3: the claim reads that removing an absent id is a no-op; in
the source, findIndex yields -1 for an absent id, the branch
taskIndex < currentTaskIndex then fires and decrements the cursor, and
the countdown flags are cleared unconditionally. Evaluated on a one-task
state with the cursor at 0, deleting the absent id "missing" drives the
cursor to -1 (no current task) while the task list is untouched. -/
theorem c3_delete_absent_id_moves_cursor :
    (deleteTask stateRun "missing").tasks = stateRun.tasks ∧
    stateRun.currentTaskIndex = 0 ∧
    (deleteTask stateRun "missing").currentTaskIndex = -1 ∧
    currentTask (deleteTask stateRun "missing") = none ∧
    stateRun.isActive = true ∧
    (deleteTask stateRun "missing").isActive = false := by
  decide

/-- Counterexample to claim C7 as stated: selectTask applies no range
check, so selecting index 5 in a one-task collection (valid range [0,0])
is not a no-op: the cursor really becomes 5. -/
theorem c7_select_out_of_range_not_noop :
    selectTask stateRun 5 ≠ stateRun ∧
    (selectTask stateRun 5).currentTaskIndex = 5 := by
  decide

/-- Claim C7 as amended: selectTask sets the cursor to the given index
unconditionally (the source has no range check; the interface only
invokes it with in-range indices); every navigation - select, next
within bounds, previous within bounds - stops the countdown and leaves
the Break phase, and once the resulting cursor points at a task the
resize effect sets timeLeft to that task's duration times 60. -/
theorem c7_navigation_resizes_focus (s : AppState) (i : Int) :
    ((selectTask s i).isActive = false ∧ (selectTask s i).isBreak = false ∧
      (selectTask s i).currentTaskIndex = i ∧
      (∀ t : Task, currentTask (selectTask s i) = some t →
        (durationEffect (selectTask s i)).timeLeft = t.duration * 60)) ∧
    (s.currentTaskIndex < (s.tasks.length : Int) - 1 →
      (nextTaskHandler s).isActive = false ∧
      (nextTaskHandler s).isBreak = false ∧
      (nextTaskHandler s).currentTaskIndex = s.currentTaskIndex + 1 ∧
      (∀ t : Task, currentTask (nextTaskHandler s) = some t →
        (durationEffect (nextTaskHandler s)).timeLeft = t.duration * 60)) ∧
    (0 < s.currentTaskIndex →
      (previousTaskHandler s).isActive = false ∧
      (previousTaskHandler s).isBreak = false ∧
      (previousTaskHandler s).currentTaskIndex = s.currentTaskIndex - 1 ∧
      (∀ t : Task, currentTask (previousTaskHandler s) = some t →
        (durationEffect (previousTaskHandler s)).timeLeft = t.duration * 60)) := by
  refine ⟨⟨rfl, rfl, rfl, ?_⟩, fun h => ?_, fun h => ?_⟩
  · intro t ht
    simp only [selectTask] at ht ⊢
    simp [durationEffect, ht]
  · unfold nextTaskHandler
    rw [if_pos h]
    refine ⟨rfl, rfl, rfl, ?_⟩
    intro t ht
    simp [durationEffect, ht]
  · unfold previousTaskHandler
    rw [if_pos h]
    refine ⟨rfl, rfl, rfl, ?_⟩
    intro t ht
    simp [durationEffect, ht]

/-- Claim C10: with no current task and outside a break, resetTimer and
stopSession stop the countdown but leave timeLeft untouched. -/
theorem c10_reset_stop_keep_time (s : AppState)
    (hcur : currentTask s = none) (hb : s.isBreak = false) :
    (resetTimer s).isActive = false ∧ (resetTimer s).timeLeft = s.timeLeft ∧
    (stopSession s).isActive = false ∧ (stopSession s).isBreak = false ∧
    (stopSession s).timeLeft = s.timeLeft := by
  simp [resetTimer, stopSession, hcur, hb]

/-- Witness for C10: the empty-collection state with 42 seconds on the
clock keeps its 42 seconds through reset and stop. -/
theorem c10_reset_stop_keep_time_witness :
    (resetTimer stateEmpty).isActive = false ∧
    (resetTimer stateEmpty).timeLeft = stateEmpty.timeLeft ∧
    (stopSession stateEmpty).isActive = false ∧
    (stopSession stateEmpty).isBreak = false ∧
    (stopSession stateEmpty).timeLeft = stateEmpty.timeLeft :=
  c10_reset_stop_keep_time stateEmpty rfl rfl

/-- Claim C5: updateTask is a no-op when the title trims to nothing or
the id is not found; otherwise it replaces exactly the provided fields of
every position holding the targeted task, keeps its sessions, completed
flag and id, leaves every other task in place, and touches no other part
of the state. -/
theorem c5_update_noop_and_frame (s : AppState) (editId title desc : String)
    (dur : Nat) (w : Weightage) (tagsRaw : String) :
    (jsTrim title = "" →
      updateTask s editId title desc dur w tagsRaw = s) ∧
    (editId ∉ s.tasks.map Task.id →
      updateTask s editId title desc dur w tagsRaw = s) ∧
    ((updateTask s editId title desc dur w tagsRaw).currentTaskIndex =
        s.currentTaskIndex ∧
      (updateTask s editId title desc dur w tagsRaw).timeLeft = s.timeLeft ∧
      (updateTask s editId title desc dur w tagsRaw).isActive = s.isActive ∧
      (updateTask s editId title desc dur w tagsRaw).isBreak = s.isBreak ∧
      (updateTask s editId title desc dur w tagsRaw).completedSessions =
        s.completedSessions) ∧
    (jsTrim title ≠ "" → ∀ (i : Nat) (t : Task), s.tasks[i]? = some t →
      (updateTask s editId title desc dur w tagsRaw).tasks[i]? =
        some (if t.id = editId then
          { t with
            title := jsTrim title
            description := if jsTrim desc = "" then none else some (jsTrim desc)
            duration := dur
            weightage := w
            tags := splitTags tagsRaw }
        else t)) := by
  refine ⟨fun he => by simp [updateTask, he], fun hni => ?_, ?_, fun hne i t hit => ?_⟩
  · unfold updateTask
    split
    · rfl
    · have hmap : s.tasks.map (fun task =>
          if task.id = editId then
            { task with
              title := jsTrim title
              description := if jsTrim desc = "" then none else some (jsTrim desc)
              duration := dur
              weightage := w
              tags := splitTags tagsRaw }
          else task) = s.tasks := by
        have h1 := List.map_congr_left (l := s.tasks)
          (f := fun task =>
            if task.id = editId then
              { task with
                title := jsTrim title
                description := if jsTrim desc = "" then none else some (jsTrim desc)
                duration := dur
                weightage := w
                tags := splitTags tagsRaw }
            else task)
          (g := id) (fun a ha => by
            have hne2 : a.id ≠ editId := by
              intro hid
              exact hni (hid ▸ List.mem_map_of_mem Task.id ha)
            simp [hne2])
        rw [h1, List.map_id]
      rw [hmap]
  · unfold updateTask
    split
    · exact ⟨rfl, rfl, rfl, rfl, rfl⟩
    · exact ⟨rfl, rfl, rfl, rfl, rfl⟩
  · unfold updateTask
    rw [if_neg hne]
    simp only [List.getElem?_map, hit, Option.map_some']

/-- Witness for C5: a whitespace-only title is refused, an unknown id
changes nothing, a real update of taskB rewrites position 1 to the new
fields (sessions, completed and id untouched) and leaves position 0
alone. -/
theorem c5_update_noop_and_frame_witness :
    updateTask stateThree "b" "  " "notes" 45 Weightage.high "x,y" = stateThree ∧
    updateTask stateThree "zzz" "Deep read" "notes" 45 Weightage.high "x,y" =
      stateThree ∧
    (updateTask stateThree "b" "Deep read" "notes" 45 Weightage.high
      "x,y").tasks[1]? =
      some { taskB with
        title := "Deep read"
        description := some "notes"
        duration := 45
        weightage := Weightage.high
        tags := ["x", "y"] } ∧
    (updateTask stateThree "b" "Deep read" "notes" 45 Weightage.high
      "x,y").tasks[0]? = some taskA :=
  ⟨(c5_update_noop_and_frame stateThree "b" "  " "notes" 45 Weightage.high
      "x,y").1 rfl,
   (c5_update_noop_and_frame stateThree "zzz" "Deep read" "notes" 45
      Weightage.high "x,y").2.1 (by decide),
   (c5_update_noop_and_frame stateThree "b" "Deep read" "notes" 45
      Weightage.high "x,y").2.2.2 (by decide) 1 taskB rfl,
   (c5_update_noop_and_frame stateThree "b" "Deep read" "notes" 45
      Weightage.high "x,y").2.2.2 (by decide) 0 taskA rfl⟩

/-- Claim C4: removing a present id adjusts the cursor as specified:
an index strictly before the cursor decrements the cursor; deleting the
current task when it sits last in a collection of length L greater than
one sets the cursor to L - 2; deleting it from a one-task collection
leaves no current task. -/
theorem c4_delete_cursor_adjustment (s : AppState) (taskId : String) (j : Int)
    (hj : findIndex s.tasks taskId = j) (hj0 : 0 ≤ j) :
    (j < s.currentTaskIndex →
      (deleteTask s taskId).currentTaskIndex = s.currentTaskIndex - 1) ∧
    (j = s.currentTaskIndex → j = (s.tasks.length : Int) - 1 →
        1 < s.tasks.length →
      (deleteTask s taskId).currentTaskIndex = (s.tasks.length : Int) - 2) ∧
    (s.tasks.length = 1 →
      (deleteTask s taskId).tasks = [] ∧
      currentTask (deleteTask s taskId) = none) := by
  refine ⟨fun hlt => ?_, fun hcur hlast hlen => ?_, fun hone => ?_⟩
  · unfold deleteTask
    rw [hj]
    rw [if_neg (by omega), if_pos hlt]
  · have hmax : (deleteTask s taskId).currentTaskIndex =
        max 0 ((s.tasks.length : Int) - 2) := by
      unfold deleteTask
      rw [hj, if_pos ⟨hcur, by omega⟩]
    rw [hmax]
    omega
  · obtain ⟨t, ht⟩ := List.length_eq_one.mp hone
    have hid : t.id = taskId := by
      by_contra hne
      rw [ht] at hj
      simp [findIndex, findIndexAux, hne] at hj
      omega
    have htasks : (deleteTask s taskId).tasks = [] := by
      unfold deleteTask
      simp [ht, List.filter, hid]
    refine ⟨htasks, ?_⟩
    unfold currentTask
    rw [htasks]
    simp

/-- Witness for C4, covering all three cases: deleting taskA (index 0,
before the cursor at 2), deleting taskC (last and current in a length 3
collection), and deleting the single task of the running state. -/
theorem c4_delete_cursor_adjustment_witness :
    ((0 : Int) < stateThree.currentTaskIndex →
      (deleteTask stateThree "a").currentTaskIndex =
        stateThree.currentTaskIndex - 1) ∧
    ((2 : Int) = stateThree.currentTaskIndex →
        (2 : Int) = (stateThree.tasks.length : Int) - 1 →
        1 < stateThree.tasks.length →
      (deleteTask stateThree "c").currentTaskIndex =
        (stateThree.tasks.length : Int) - 2) ∧
    (stateRun.tasks.length = 1 →
      (deleteTask stateRun "a").tasks = [] ∧
      currentTask (deleteTask stateRun "a") = none) :=
  ⟨(c4_delete_cursor_adjustment stateThree "a" 0 (by decide) (by decide)).1,
   (c4_delete_cursor_adjustment stateThree "c" 2 (by decide) (by decide)).2.1,
   (c4_delete_cursor_adjustment stateRun "a" 0 (by decide) (by decide)).2.2⟩

/-- Claim C6: with a current task of valid duration, outside a break and
with the countdown stopped, the resize effect plus start yields
timeLeft = duration * 60, a running countdown and progress 0; starting
with no current task and not already in a break is a no-op. -/
theorem c6_start_focus_session (s : AppState) (t : Task)
    (hcur : currentTask s = some t) (h5 : 5 ≤ t.duration)
    (h120 : t.duration ≤ 120) (hb : s.isBreak = false)
    (ha : s.isActive = false) :
    (startTimer (durationEffect s)).timeLeft = t.duration * 60 ∧
    (startTimer (durationEffect s)).isActive = true ∧
    progress (startTimer (durationEffect s)) = 0 ∧
    (∀ s2 : AppState, currentTask s2 = none → s2.isBreak = false →
      startTimer s2 = s2) := by
  have hde : durationEffect s = { s with timeLeft := t.duration * 60 } := by
    simp [durationEffect, hcur, hb, ha]
  have hct : currentTask { s with timeLeft := t.duration * 60 } = some t := hcur
  have hst : startTimer { s with timeLeft := t.duration * 60 } =
      { s with timeLeft := t.duration * 60, isActive := true } := by
    simp [startTimer, hct]
  rw [hde, hst]
  refine ⟨rfl, rfl, ?_, ?_⟩
  · have hct2 : currentTask
        { s with timeLeft := t.duration * 60, isActive := true } = some t := hcur
    have hd0 : ¬ t.duration = 0 := by omega
    unfold progress
    rw [if_pos (by simp; omega)]
    have htot : totalTime { s with timeLeft := t.duration * 60, isActive := true } =
        t.duration * 60 := by
      unfold totalTime
      rw [hct2]
      simp [hb, hd0]
    rw [htot]
    simp
  · intro s2 h1 h2
    simp [startTimer, h1, h2]

/-- Witness for C6: starting on taskA (duration 5) from the idle running
state with the flag off, and the no-op on the empty state with the break
flag off and the countdown halted. -/
theorem c6_start_focus_session_witness :
    (startTimer (durationEffect { stateRun with isActive := false })).timeLeft =
      taskA.duration * 60 ∧
    (startTimer (durationEffect { stateRun with isActive := false })).isActive = true ∧
    progress (startTimer (durationEffect { stateRun with isActive := false })) = 0 ∧
    (∀ s2 : AppState, currentTask s2 = none → s2.isBreak = false →
      startTimer s2 = s2) :=
  c6_start_focus_session { stateRun with isActive := false } taskA rfl
    (by decide) (by decide) rfl rfl

/-- Claim C9: pairwise distinct task ids are preserved by the three
mutating task-store operations; for addTask this rests on the freshness
of the generated timestamp id, passed in as the hypothesis that the new
id is not already present. -/
theorem c9_id_uniqueness_preserved (s : AppState)
    (h : (s.tasks.map Task.id).Nodup) :
    (∀ (newId title desc : String) (dur : Nat) (w : Weightage)
        (tagsRaw : String), newId ∉ s.tasks.map Task.id →
      ((addTask s newId title desc dur w tagsRaw).tasks.map Task.id).Nodup) ∧
    (∀ (editId title desc : String) (dur : Nat) (w : Weightage)
        (tagsRaw : String),
      ((updateTask s editId title desc dur w tagsRaw).tasks.map Task.id).Nodup) ∧
    (∀ taskId : String,
      ((deleteTask s taskId).tasks.map Task.id).Nodup) := by
  refine ⟨fun newId title desc dur w tagsRaw hfresh => ?_,
    fun editId title desc dur w tagsRaw => ?_, fun taskId => ?_⟩
  · unfold addTask
    split
    · exact h
    · simp only [List.map_append, List.map_cons, List.map_nil]
      rw [List.nodup_append]
      refine ⟨h, List.nodup_singleton _, ?_⟩
      intro a hal har
      simp only [List.mem_singleton] at har
      exact hfresh (har ▸ hal)
  · unfold updateTask
    split
    · exact h
    · have hids : ((s.tasks.map (fun task =>
          if task.id = editId then
            { task with
              title := jsTrim title
              description := if jsTrim desc = "" then none else some (jsTrim desc)
              duration := dur
              weightage := w
              tags := splitTags tagsRaw }
          else task)).map Task.id) = s.tasks.map Task.id := by
        rw [List.map_map]
        apply List.map_congr_left
        intro a _
        by_cases hc : a.id = editId <;> simp [Function.comp, hc]
      show ((s.tasks.map _).map Task.id).Nodup
      rw [hids]
      exact h
  · exact List.Nodup.sublist
      (List.Sublist.map Task.id (List.filter_sublist s.tasks)) h

/-- Witness for C9: the three-task state has distinct ids and keeps them
distinct through a fresh add, an update of taskB and a delete of
taskB. -/
theorem c9_id_uniqueness_preserved_witness :
    ((addTask stateThree "d" "plan" "" 25 Weightage.medium "").tasks.map
      Task.id).Nodup ∧
    ((updateTask stateThree "b" "skim" "" 20 Weightage.low "book").tasks.map
      Task.id).Nodup ∧
    ((deleteTask stateThree "b").tasks.map Task.id).Nodup :=
  ⟨(c9_id_uniqueness_preserved stateThree (by decide)).1 "d" "plan" "" 25
      Weightage.medium "" (by decide),
   (c9_id_uniqueness_preserved stateThree (by decide)).2.1 "b" "skim" "" 20
      Weightage.low "book",
   (c9_id_uniqueness_preserved stateThree (by decide)).2.2 "b"⟩

/-- A serialized list of strings reads back unchanged. -/
theorem decodeStrList_map (l : List String) :
    decodeStrList (l.map Json.str) = some l := by
  induction l with
  | nil => rfl
  | cons a rest ih => simp [decodeStrList, Json.asStr, ih]

/-- The weightage string representation reads back unchanged. -/
theorem strToWeightage_roundTrip (w : Weightage) :
    strToWeightage (weightageToStr w) = some w := by
  cases w <;> rfl

/-- One serialized Task record reads back field for field. -/
theorem decodeTask_encodeTask (t : Task) : decodeTask (encodeTask t) = some t := by
  obtain ⟨tid, title, desc, dur, comp, sess, w, tags⟩ := t
  cases desc <;>
    simp [decodeTask, encodeTask, Json.getField, lookupField, Json.asStr,
      Json.asNat, Json.asBool, strToWeightage_roundTrip, decodeStrList_map,
      Int.toNat_natCast, Int.natCast_nonneg]

/-- A serialized array of Task records reads back unchanged. -/
theorem decodeTaskArr_map (ts : List Task) :
    decodeTaskArr (ts.map encodeTask) = some ts := by
  induction ts with
  | nil => rfl
  | cons t rest ih => simp [decodeTaskArr, decodeTask_encodeTask, ih]

/-- Claim C8: serializing the task collection (list and cursor), the
settings record and the session data record to storage and reading them
back yields values field for field equal to the originals. -/
theorem c8_persistence_round_trip :
    ∀ (ts : List Task) (idx : Int) (st : Settings) (sd : SessionData),
    decodeTaskList (encodeTaskList ts) = some ts ∧
    decodeIndex (encodeIndex idx) = some idx ∧
    decodeSettings (encodeSettings st) = some st ∧
    decodeSessionData (encodeSessionData sd) = some sd := by
  intro ts idx st sd
  refine ⟨?_, rfl, ?_, ?_⟩
  · simp [decodeTaskList, encodeTaskList, decodeTaskArr_map]
  · obtain ⟨sb, lb, su⟩ := st
    simp [decodeSettings, encodeSettings, Json.getField, lookupField,
      Json.asNat, Int.toNat_natCast, Int.natCast_nonneg]
  · obtain ⟨n⟩ := sd
    simp [decodeSessionData, encodeSessionData, Json.getField, lookupField,
      Json.asNat, Int.toNat_natCast, Int.natCast_nonneg]

/-- While active with more than one second on the clock, a tick only
decrements the countdown. -/
theorem tick_of_active_gt_one (s : AppState) (ha : s.isActive = true)
    (h : 1 < s.timeLeft) : tick s = { s with timeLeft := s.timeLeft - 1 } := by
  unfold tick
  rw [if_pos ⟨ha, by omega⟩]
  unfold timerEffect
  rw [if_pos ⟨ha, show 0 < s.timeLeft - 1 by omega⟩]

/-- Claim C1: from a fresh focus start on the current task t, the first
duration*60 - 1 ticks only count down (the whole state is otherwise
untouched, so no transition side effect fires early); the tick that
reaches zero fires the Focus to Break transition exactly once, leaving
completedSessions incremented by one and the current task's sessions
counter incremented by one; and the next tick, now inside the break,
fires no second transition: both counters are still exactly one above
their start. -/
theorem c1_focus_countdown_single_transition (s : AppState) (t : Task)
    (hcur : currentTask s = some t) (hd : 0 < t.duration)
    (htl : s.timeLeft = t.duration * 60) (ha : s.isActive = true)
    (hb : s.isBreak = false) (hsb : 0 < s.shortBreakTime)
    (hlb : 0 < s.longBreakTime) :
    (∀ k, k < t.duration * 60 →
      tick^[k] s = { s with timeLeft := t.duration * 60 - k }) ∧
    (tick^[t.duration * 60] s).completedSessions = s.completedSessions + 1 ∧
    currentTask (tick^[t.duration * 60] s) =
      some { t with sessions := t.sessions + 1 } ∧
    (tick^[t.duration * 60] s).isBreak = true ∧
    (tick^[t.duration * 60 + 1] s).completedSessions = s.completedSessions + 1 ∧
    currentTask (tick^[t.duration * 60 + 1] s) =
      some { t with sessions := t.sessions + 1 } := by
  have haux : ∀ k, k < t.duration * 60 →
      tick^[k] s = { s with timeLeft := t.duration * 60 - k } := by
    intro k
    induction k with
    | zero =>
        intro _
        rw [Function.iterate_zero_apply, Nat.sub_zero, ← htl]
    | succ k ih =>
        intro hk
        rw [Function.iterate_succ_apply', ih (by omega),
          tick_of_active_gt_one { s with timeLeft := t.duration * 60 - k } ha
            (show 1 < t.duration * 60 - k by omega)]
        rw [show t.duration * 60 - k - 1 = t.duration * 60 - (k + 1) by omega]
  have hstep : tick^[t.duration * 60] s = timerEffect { s with timeLeft := 0 } := by
    have h1 : tick^[t.duration * 60] s = tick (tick^[t.duration * 60 - 1] s) := by
      conv_lhs => rw [show t.duration * 60 = (t.duration * 60 - 1) + 1 by omega]
      rw [Function.iterate_succ_apply']
    rw [h1, haux (t.duration * 60 - 1) (by omega)]
    unfold tick
    rw [if_pos ⟨ha, show 0 < t.duration * 60 - (t.duration * 60 - 1) by omega⟩]
    rw [show t.duration * 60 - (t.duration * 60 - 1) - 1 = 0 by omega]
  have hcur0 : currentTask { s with timeLeft := 0 } = some t := hcur
  have heff : timerEffect { s with timeLeft := 0 } =
      focusComplete { s with timeLeft := 0 } := by
    unfold timerEffect
    rw [if_neg (by simp)]
    rw [if_pos ⟨rfl, ha⟩]
    rw [if_pos ⟨hb, by rw [hcur0]; rfl⟩]
  have hfc : focusComplete { s with timeLeft := 0 } = { s with
      completedSessions := s.completedSessions + 1
      tasks := s.tasks.map (fun task =>
        if task.id = t.id then { task with sessions := task.sessions + 1 }
        else task)
      breakType :=
        if (s.completedSessions + 1) % s.sessionsUntilLongBreak = 0 then
          BreakType.long
        else BreakType.short
      isBreak := true
      timeLeft :=
        (if (s.completedSessions + 1) % s.sessionsUntilLongBreak = 0 then
          s.longBreakTime
        else s.shortBreakTime) * 60 } := by
    unfold focusComplete
    rw [hcur0]
  have h0 : 0 ≤ s.currentTaskIndex ∧
      s.tasks[s.currentTaskIndex.toNat]? = some t := by
    unfold currentTask at hcur
    by_cases h : 0 ≤ s.currentTaskIndex
    · exact ⟨h, by rwa [if_pos h] at hcur⟩
    · rw [if_neg h] at hcur
      exact absurd hcur (by simp)
  have hmapget : (s.tasks.map (fun task =>
      if task.id = t.id then { task with sessions := task.sessions + 1 }
      else task))[s.currentTaskIndex.toNat]? =
      some { t with sessions := t.sessions + 1 } := by
    rw [List.getElem?_map, h0.2]
    simp
  have hctF : currentTask (tick^[t.duration * 60] s) =
      some { t with sessions := t.sessions + 1 } := by
    rw [hstep, heff, hfc]
    unfold currentTask
    rw [if_pos h0.1]
    exact hmapget
  have hbig : 1 < ((if (s.completedSessions + 1) % s.sessionsUntilLongBreak = 0
      then s.longBreakTime else s.shortBreakTime) * 60) := by
    by_cases hc : (s.completedSessions + 1) % s.sessionsUntilLongBreak = 0 <;>
      simp [hc] <;> omega
  have hE : tick^[t.duration * 60 + 1] s = { s with
      completedSessions := s.completedSessions + 1
      tasks := s.tasks.map (fun task =>
        if task.id = t.id then { task with sessions := task.sessions + 1 }
        else task)
      breakType :=
        if (s.completedSessions + 1) % s.sessionsUntilLongBreak = 0 then
          BreakType.long
        else BreakType.short
      isBreak := true
      timeLeft :=
        ((if (s.completedSessions + 1) % s.sessionsUntilLongBreak = 0 then
          s.longBreakTime
        else s.shortBreakTime) * 60) - 1 } := by
    rw [Function.iterate_succ_apply', hstep, heff, hfc]
    rw [tick_of_active_gt_one { s with
      completedSessions := s.completedSessions + 1
      tasks := s.tasks.map (fun task =>
        if task.id = t.id then { task with sessions := task.sessions + 1 }
        else task)
      breakType :=
        if (s.completedSessions + 1) % s.sessionsUntilLongBreak = 0 then
          BreakType.long
        else BreakType.short
      isBreak := true
      timeLeft :=
        (if (s.completedSessions + 1) % s.sessionsUntilLongBreak = 0 then
          s.longBreakTime
        else s.shortBreakTime) * 60 } ha hbig]
  refine ⟨haux, ?_, hctF, ?_, ?_, ?_⟩
  · rw [hstep, heff, hfc]
  · rw [hstep, heff, hfc]
  · rw [hE]
  · rw [hE]
    unfold currentTask
    rw [if_pos h0.1]
    exact hmapget

/-- Witness for C1: five minutes of taskA, 300 ticks, exactly one
transition, and the 301st tick adds nothing. -/
theorem c1_focus_countdown_single_transition_witness :
    (∀ k, k < taskA.duration * 60 →
      tick^[k] stateRun = { stateRun with timeLeft := taskA.duration * 60 - k }) ∧
    (tick^[taskA.duration * 60] stateRun).completedSessions =
      stateRun.completedSessions + 1 ∧
    currentTask (tick^[taskA.duration * 60] stateRun) =
      some { taskA with sessions := taskA.sessions + 1 } ∧
    (tick^[taskA.duration * 60] stateRun).isBreak = true ∧
    (tick^[taskA.duration * 60 + 1] stateRun).completedSessions =
      stateRun.completedSessions + 1 ∧
    currentTask (tick^[taskA.duration * 60 + 1] stateRun) =
      some { taskA with sessions := taskA.sessions + 1 } :=
  c1_focus_countdown_single_transition stateRun taskA rfl (by decide) rfl rfl
    rfl (by decide) (by decide)

end Pomodoro
